import Mathlib

/-!
Verification development for the bazel-bench benchmarking core.

Shallow embedding of:
- src/utils/values.py        (class Values: statistics over observation lists)
- src/utils/bazel_args_parser.py  (parse_bazel_args_from_canonical_str)
- src/utils/bazel.py         (Bazel.command)
- src/benchmark.py           (_single_run, _run_benchmark, create_summary)

Python float lists become List Rat (the statistics here are exact on the
sample values; no rounding is relevant to any stated property).  Stateful
and process-running code is embedded with explicit environments: process
outcomes, measured times and heap-query answers are oracle inputs, and the
sequence of Bazel invocations is returned as an explicit trace.
-/

namespace BazelBench

/-! ## src/utils/values.py : list-level statistics -/

/-- Arithmetic mean of a list (numpy.mean on a Python float list). -/
def listMean (xs : List ℚ) : ℚ := xs.sum / xs.length

/-- Insertion of a value into an ascending list, keeping it ascending. -/
def insertSorted (x : ℚ) : List ℚ → List ℚ
  | [] => [x]
  | y :: ys => if x ≤ y then x :: y :: ys else y :: insertSorted x ys

/-- Ascending insertion sort; models the sort inside numpy.median. -/
def sortAsc (xs : List ℚ) : List ℚ := xs.foldr insertSorted []

/-- Median (numpy.median): middle element of the sorted list, or the mean of
the two middle elements when the length is even. -/
def listMedian (xs : List ℚ) : ℚ :=
  let s := sortAsc xs
  if xs.length % 2 = 1 then s.getD (xs.length / 2) 0
  else (s.getD (xs.length / 2 - 1) 0 + s.getD (xs.length / 2) 0) / 2

/-- Empirical CDF of a sample at a point: the fraction of observations that
are at most x.  Building block of the two-sample Kolmogorov-Smirnov test
computed by scipy.stats.ks_2samp in Values.pval. -/
def ecdf (s : List ℚ) (x : ℚ) : ℚ := (s.countP (fun y => y ≤ x) : ℚ) / (s.length : ℚ)

/-- Two-sample KS statistic: the largest distance between the two empirical
CDFs, attained at an observed point of either sample. -/
def ksStat (s t : List ℚ) : ℚ :=
  (((s ++ t).map (fun x => |ecdf s x - ecdf t x|)).foldr max 0)

/-- Whether the lattice point (i, j) lies strictly inside the KS band of
half-width d, for sample sizes n and m; the comparison |i/n - j/m| < d is
cleared of denominators. -/
def ksInside (n m : ℕ) (d : ℚ) (i j : ℕ) : Bool :=
  |(i * m : ℚ) - (j * n : ℚ)| < d * (n : ℚ) * (m : ℚ)

/-- Fuelled count of the monotone lattice paths from (0, 0) to (i, j) all
of whose points satisfy P; the fuel bounds the recursion depth and any fuel
above i + j is enough. -/
def pathCountF (P : ℕ → ℕ → Bool) : ℕ → ℕ → ℕ → ℕ
  | 0, _, _ => 0
  | _ + 1, 0, 0 => if P 0 0 then 1 else 0
  | fuel + 1, i + 1, 0 => if P (i + 1) 0 then pathCountF P fuel i 0 else 0
  | fuel + 1, 0, j + 1 => if P 0 (j + 1) then pathCountF P fuel 0 j else 0
  | fuel + 1, i + 1, j + 1 =>
      if P (i + 1) (j + 1) then pathCountF P fuel i (j + 1) + pathCountF P fuel (i + 1) j
      else 0

/-- Number of monotone lattice paths from (0, 0) to (i, j) all of whose
points satisfy P. -/
def pathCount (P : ℕ → ℕ → Bool) (i j : ℕ) : ℕ := pathCountF P (i + j + 1) i j

/-- Exact two-sided p-value of the two-sample KS test, the model of
scipy.stats.ks_2samp used by Values.pval (scipy computes the exact
distribution for small samples by this lattice-path count): under the null
hypothesis all interleavings of the two samples are equally likely, and
p = P(D >= observed d) = 1 - (#paths strictly inside the band) / C(n+m, n).
On the repository test vectors this model reproduces scipy exactly:
p = 1 for two identical samples and p = 1/10 for [1,1,1] against
[10,10,10] (values_test.py expects pval 0 and 0.900). -/
def ks2sampPvalue (s t : List ℚ) : ℚ :=
  let n := s.length
  let m := t.length
  let d := ksStat s t
  1 - (pathCount (ksInside n m d) n m : ℚ) / (Nat.choose (n + m) n : ℚ)

/-- Values.pval (src/utils/values.py lines 53-70): 1 - p of the two-sample
KS test against base_values when both samples have more than one
observation, and the sentinel -1 otherwise. -/
def Values.pval (items baseValues : List ℚ) : ℚ :=
  if 1 < items.length ∧ 1 < baseValues.length then 1 - ks2sampPvalue items baseValues
  else -1

/-- Modelled from the spec: Values.exclude_from_indexes (the spec name is
excludeIndices) is called by create_summary at src/benchmark.py line 419 but
is absent from src/utils/values.py in this tree.  Per the spec it "returns a
new sample with observations at the given zero-based positions removed":
keep each observation whose zero-based position is not in the index set. -/
def Values.excludeIndices (items : List ℚ) (indices : List ℕ) : List ℚ :=
  (items.enum.filter (fun p => decide (p.1 ∉ indices))).map Prod.snd

/-- Positions of a sample of length n that survive exclusion of the given
index set, in increasing order.  Used to state that exclusion removes
exactly the given positions and preserves the order of the rest. -/
def keptPositions (n : ℕ) (indices : List ℕ) : List ℕ :=
  (List.range n).filter (fun i => decide (i ∉ indices))

/-! ## src/utils/values.py : reference semantics of the Values object

Values stores its observations in a Python list; which list object is stored
matters (aliasing).  The heap of list objects is modelled explicitly: a
store maps locations to list contents, and a Values object is the location
of its internal _items list. -/

/-- Store of Python list objects: next fresh location and the contents at
each location. -/
structure VStore where
  next : ℕ
  mem : ℕ → List ℚ

/-- Allocation of a new list object with the given contents. -/
def VStore.alloc (σ : VStore) (xs : List ℚ) : VStore × ℕ :=
  (⟨σ.next + 1, fun l => if l = σ.next then xs else σ.mem l⟩, σ.next)

/-- In-place mutation of the list object at location l. -/
def VStore.write (σ : VStore) (l : ℕ) (xs : List ℚ) : VStore :=
  ⟨σ.next, fun k => if k = l then xs else σ.mem k⟩

/-- Values.__init__ (src/utils/values.py lines 30-31): self._items = items
or [].  A non-empty caller list is stored as-is (aliased); None or an empty
list (both falsy) allocate a fresh empty list. -/
def Values.init (σ : VStore) (arg : Option ℕ) : VStore × ℕ :=
  match arg with
  | none => σ.alloc []
  | some l => if σ.mem l = [] then σ.alloc [] else (σ, l)

/-- Values.add: appends the value to the stored list, in place. -/
def Values.add (σ : VStore) (v : ℕ) (x : ℚ) : VStore := σ.write v (σ.mem v ++ [x])

/-- Values.values (src/utils/values.py lines 37-39): returns the internal
list itself, i.e. the very same location. -/
def Values.valuesRef (v : ℕ) : ℕ := v

/-- Values.items (src/utils/values.py lines 72-73): returns copy.copy of
the internal list, i.e. a freshly allocated list with the same contents. -/
def Values.itemsRef (σ : VStore) (v : ℕ) : VStore × ℕ := σ.alloc (σ.mem v)

/-- Values.mean read through the store. -/
def Values.meanAt (σ : VStore) (v : ℕ) : ℚ := listMean (σ.mem v)

/-- Values.median read through the store. -/
def Values.medianAt (σ : VStore) (v : ℕ) : ℚ := listMedian (σ.mem v)

/-! ## src/utils/bazel_args_parser.py : parse_bazel_args_from_canonical_str -/

/-- Failure modes of canonical-argument normalization.  The source can only
fail with a Python IndexError (args[0] on an empty list);
malformedInvocation is the error class the spec documentation names and is
never produced by the source. -/
inductive ArgsParseError
  | indexOutOfRange
  | malformedInvocation
deriving DecidableEq

/-- Test of the Python condition args[i].startswith of two dashes: the token
begins with the characters - - . -/
def startsWithFlagMarker (s : String) : Bool :=
  match s.data with
  | '-' :: '-' :: _ => true
  | _ => false

/-- Loop of parse_bazel_args_from_canonical_str (src/utils/bazel_args_parser.py
lines 122-126): scan the tokens after the command; each token starting with
the flag marker is appended to options, and the first token that does not
begins the expressions, which take all remaining tokens. -/
def splitCanonical : List String → List String × List String
  | [] => ([], [])
  | a :: rest =>
      if startsWithFlagMarker a then
        let p := splitCanonical rest
        (a :: p.1, p.2)
      else ([], a :: rest)

/-- parse_bazel_args_from_canonical_str (src/utils/bazel_args_parser.py
lines 101-128): the first token is the command (args[0]; IndexError on an
empty list), the rest is split into options and expressions; the source
returns the tuple (command, expressions, options). -/
def parseCanonicalArgs (args : List String) :
    Except ArgsParseError (String × List String × List String) :=
  match args with
  | [] => .error .indexOutOfRange
  | cmd :: rest =>
      let p := splitCanonical rest
      .ok (cmd, p.2, p.1)

/-! ## src/benchmark.py : _single_run option injection -/

/-- Option-list transformation of _single_run (src/benchmark.py lines
253-256): when the command is "build" the source computes
options + ["--nostamp", "--noshow_progress", "--color=no"], appending the
three defaults after the caller options, unconditionally (no check whether
a default is already present). -/
def singleRunOptions (command : String) (options : List String) : List String :=
  if command = "build" then options ++ ["--nostamp", "--noshow_progress", "--color=no"]
  else options

/-- Option-list transformation as the spec states it: the defaults not
already present in the caller options are prepended, caller options follow.
Stated only to be compared with singleRunOptions (refinement comparison). -/
def specSingleRunOptions (command : String) (options : List String) : List String :=
  if command = "build" then
    (["--nostamp", "--noshow_progress", "--color=no"].filter
      (fun d => decide (d ∉ options))) ++ options
  else options

/-! ## src/utils/bazel.py : Bazel.command

The subprocess world is an oracle: the outcome of the child process, the
companion-server time queries before and after, and the successive answers
of the used-heap-size query.  subprocess.check_call raising
CalledProcessError is caught with the returncode recorded; any other launch
failure (OSError: binary missing or not executable) is uncaught and
propagates, modelled as the error case. -/

/-- Wall, cpu and system counters returned by Bazel._get_times. -/
structure Times where
  wall : ℚ
  cpu : ℚ
  system : ℚ
deriving DecidableEq

/-- Outcome of the child process started by subprocess.check_call. -/
inductive ProcOutcome
  | exited (code : ℤ)
  | launchFailure
deriving DecidableEq

/-- Oracle for one Bazel.command call: the process outcome, the time queries
before and after, and the heap-query answers in query order. -/
structure CmdEnv where
  outcome : ProcOutcome
  before : Times
  after : Times
  heap : ℕ → ℚ

/-- Result record built by Bazel.command (the dict literal of
src/benchmark.py lines 240-247 without started_at, which carries no
numeric content used anywhere in the claims). -/
structure RunRecord where
  wall : ℚ
  cpu : ℚ
  system : ℚ
  memory : ℚ
  exitStatus : ℤ
deriving DecidableEq

/-- Python min over the five heap queries:
min([self._get_heap_size() for _ in range(5)]). -/
def minHeap5 (h : ℕ → ℚ) : ℚ :=
  min (h 0) (min (h 1) (min (h 2) (min (h 3) (h 4))))

/-- Bazel.command (src/utils/bazel.py lines 41-90).  A CalledProcessError
is caught and its returncode recorded as exit_status; a launch failure
propagates (error case).  When the command is "shutdown" the method returns
None before measuring.  Otherwise the record holds the time deltas, the
exit status, and - unconditionally, the method takes no collect_memory
parameter - the minimum of 5 successive heap queries as memory. -/
def Bazel.command (cmd : String) (args : List String) (env : CmdEnv) :
    Except Unit (Option RunRecord) :=
  match env.outcome with
  | .launchFailure => .error ()
  | .exited code =>
      if cmd = "shutdown" then .ok none
      else
        .ok (some
          { wall := env.after.wall - env.before.wall
            cpu := env.after.cpu - env.before.cpu
            system := env.after.system - env.before.system
            memory := minHeap5 env.heap
            exitStatus := code })

/-- The unused args parameter keeps Bazel.command applied exactly as the
source calls it; this lemma records that the record does not depend on it. -/
theorem bazelCommandArgsIrrelevant (cmd : String) (a b : List String) (env : CmdEnv) :
    Bazel.command cmd a env = Bazel.command cmd b env := rfl

/-! ## src/benchmark.py : _single_run and _run_benchmark -/

/-- One entry of the invocation log: which Bazel command was issued with
which arguments. -/
structure Invocation where
  command : String
  args : List String
deriving DecidableEq

/-- Oracle for one _single_run: environments for the measured command, the
clean command and the shutdown command. -/
structure SingleRunEnv where
  main : CmdEnv
  clean : CmdEnv
  shutdown : CmdEnv

/-- Failure a _single_run can propagate.  In this tree the only one ever
raised is the TypeError of the call at src/benchmark.py line 258: it passes
the keyword argument collect_memory= to Bazel.command, whose signature
(src/utils/bazel.py line 41) is (command, args=None) and accepts no such
keyword, so the call raises before any process is started. -/
inductive RunError
  | typeError
deriving DecidableEq

/-- _single_run (src/benchmark.py lines 222-272) as the frozen source
executes it: the default build options are computed (lines 253-256, the
singleRunOptions transformation), and then the call
bazel.command(command, args=options + targets, collect_memory=collect_memory)
at line 258 raises TypeError - Bazel.command has no collect_memory
parameter - before any Bazel invocation is started.  No invocation is
logged, no measurement is taken, and the clean and shutdown cleanup calls
at lines 270-271 are never reached.  The oracle is carried but never
consulted. -/
def singleRun (_command : String) (_options _targets : List String) (_collectMemory : Bool)
    (_env : SingleRunEnv) : List Invocation × Except RunError (Option RunRecord) :=
  ([], .error .typeError)

/-- Measured-run loop of _run_benchmark (src/benchmark.py lines 329-344)
with collect_json_profile disabled (the profile branch only appends flags
to the options): iterate over the run indices - the Python loop iterates
over range(1, runs + 1) - appending the result of each _single_run to
collected; an exception from _single_run propagates and aborts the
remaining repetitions. -/
def runBenchmarkLoop (command : String) (options targets : List String)
    (collectMemory : Bool) (env : ℕ → SingleRunEnv) :
    List ℕ → List Invocation × Except RunError (List (Option RunRecord))
  | [] => ([], .ok [])
  | i :: rest =>
      let r := singleRun command options targets collectMemory (env i)
      match r.2 with
      | .error e => (r.1, .error e)
      | .ok m =>
          let next := runBenchmarkLoop command options targets collectMemory env rest
          (r.1 ++ next.1, next.2.map (fun l => m :: l))

/-- _run_benchmark (src/benchmark.py lines 275-346) with
collect_json_profile disabled: an optional prefetch _single_run whose result
is discarded, then the measured-run loop over i in range(1, runs + 1). -/
def runBenchmark (command : String) (options targets : List String) (runs : ℕ)
    (prefetch : Bool) (collectMemory : Bool) (prefetchEnv : SingleRunEnv)
    (env : ℕ → SingleRunEnv) :
    List Invocation × Except RunError (List (Option RunRecord)) :=
  if prefetch then
    let p := singleRun command options targets collectMemory prefetchEnv
    match p.2 with
    | .error e => (p.1, .error e)
    | .ok _ =>
        let rest := runBenchmarkLoop command options targets collectMemory env
          (List.range' 1 runs)
        (p.1 ++ rest.1, rest.2)
  else runBenchmarkLoop command options targets collectMemory env (List.range' 1 runs)

/-! ## src/benchmark.py : create_summary

The collected dict of one (bazel_commit, project_commit) key maps each
metric name to a Values holding one observation per run.  The measured
metrics are modelled as an insertion-ordered association list and the
exit_status entry as its own field (the loop of create_summary skips the
exit_status and started_at entries; started_at holds no numeric data).
Only the numeric content of the summary is modelled: the mean, median and
the three comparison fields per metric row (the stddev column needs a real
square root and takes part in no comparison; blank comparison cells are
none). -/

/-- Aggregated samples of one key of the data dict. -/
structure Collected where
  metrics : List (String × List ℚ)
  exitStatus : List ℤ
deriving DecidableEq

/-- Keys of the non_zero_runs dict (src/benchmark.py lines 410-414): run
indices whose exit status is non-zero. -/
def nonZeroRunIndexes (exitStatus : List ℤ) : List ℕ :=
  (exitStatus.enum.filter (fun p => decide (p.2 ≠ 0))).map Prod.fst

/-- Numeric content of one metric line of the summary table. -/
structure SummaryRow where
  metric : String
  mean : ℚ
  median : ℚ
  pval : Option ℚ
  meanDiff : Option ℚ
  medianDiff : Option ℚ
deriving DecidableEq

/-- Metric rows of one key (body of the metric loop, src/benchmark.py lines
415-444): exclude the non-zero-exit run indices from the metric sample,
skip the metric if nothing remains, and compute pval and the percentage
deltas against last_collected - the previous key as collected, without any
exclusion applied (line 445 stores the raw collected) - or blanks if there
is no previous key. -/
def summaryRowsForKey (lastCollected : Option Collected) (c : Collected) :
    List SummaryRow :=
  c.metrics.filterMap (fun mv =>
    let excl := Values.excludeIndices mv.2 (nonZeroRunIndexes c.exitStatus)
    if excl = [] then none
    else
      some
        { metric := mv.1
          mean := listMean excl
          median := listMedian excl
          pval := lastCollected.bind (fun prev =>
            (prev.metrics.lookup mv.1).map (fun base => Values.pval excl base))
          meanDiff := lastCollected.bind (fun prev =>
            (prev.metrics.lookup mv.1).map (fun base =>
              100 * (listMean excl - listMean base) / listMean base))
          medianDiff := lastCollected.bind (fun prev =>
            (prev.metrics.lookup mv.1).map (fun base =>
              100 * (listMedian excl - listMedian base) / listMedian base)) })

/-- Key loop of create_summary (src/benchmark.py lines 398-445): fold over
the data in insertion order, threading last_collected, which starts absent
and is set to the raw collected of the key just processed. -/
def createSummaryRows : List Collected → Option Collected → List (List SummaryRow)
  | [], _ => []
  | c :: rest, last => summaryRowsForKey last c :: createSummaryRows rest (some c)

/-- Metric rows of one key as the claim states them: identical to
summaryRowsForKey except that the baseline samples of the previous key also
have their own non-zero-exit runs removed before comparison.  Stated only to
be compared with summaryRowsForKey (refinement comparison). -/
def claimSummaryRowsForKey (lastCollected : Option Collected) (c : Collected) :
    List SummaryRow :=
  c.metrics.filterMap (fun mv =>
    let excl := Values.excludeIndices mv.2 (nonZeroRunIndexes c.exitStatus)
    if excl = [] then none
    else
      some
        { metric := mv.1
          mean := listMean excl
          median := listMedian excl
          pval := lastCollected.bind (fun prev =>
            (prev.metrics.lookup mv.1).map (fun base =>
              Values.pval excl
                (Values.excludeIndices base (nonZeroRunIndexes prev.exitStatus))))
          meanDiff := lastCollected.bind (fun prev =>
            (prev.metrics.lookup mv.1).map (fun base =>
              let b := Values.excludeIndices base (nonZeroRunIndexes prev.exitStatus)
              100 * (listMean excl - listMean b) / listMean b))
          medianDiff := lastCollected.bind (fun prev =>
            (prev.metrics.lookup mv.1).map (fun base =>
              let b := Values.excludeIndices base (nonZeroRunIndexes prev.exitStatus)
              100 * (listMedian excl - listMedian b) / listMedian b)) })

/-- Key loop of create_summary as the claim states it. -/
def claimCreateSummaryRows : List Collected → Option Collected → List (List SummaryRow)
  | [], _ => []
  | c :: rest, last => claimSummaryRowsForKey last c :: claimCreateSummaryRows rest (some c)

/-! ## Theorems -/

/-- Elementwise description of the filtered enumeration underlying
Values.excludeIndices, generalized over the starting index of the
enumeration. -/
theorem excludeIndices_enumFrom (indices : List ℕ) :
    ∀ (xs : List ℚ) (n : ℕ),
      ((List.enumFrom n xs).filter (fun p => decide (p.1 ∉ indices))).map Prod.snd
        = ((List.range' n xs.length).filter (fun i => decide (i ∉ indices))).map
            (fun i => xs.getD (i - n) 0) := by
  intro xs
  induction xs with
  | nil => intro n; simp
  | cons x xs ih =>
    intro n
    have htail :
        ((List.range' (n + 1) xs.length).filter (fun i => decide (i ∉ indices))).map
            (fun i => (x :: xs).getD (i - n) 0)
          = ((List.range' (n + 1) xs.length).filter (fun i => decide (i ∉ indices))).map
              (fun i => xs.getD (i - (n + 1)) 0) := by
      refine List.map_congr_left ?_
      intro i hi
      have hmem := List.mem_filter.mp hi
      have hge : n + 1 ≤ i := (List.mem_range'_1.mp hmem.1).1
      have hsub : i - n = (i - (n + 1)) + 1 := by omega
      rw [hsub, List.getD_cons_succ]
    rw [List.enumFrom_cons, List.length_cons, List.range'_succ, List.filter_cons,
      List.filter_cons]
    by_cases hmem : n ∈ indices
    · rw [if_neg (by simp [hmem]), if_neg (by simp [hmem]), ih (n + 1), htail]
    · rw [if_pos (by simp [hmem]), if_pos (by simp [hmem]), List.map_cons, List.map_cons,
        ih (n + 1), htail, Nat.sub_self, List.getD_cons_zero]

/-- C1: excludeIndices returns the sample with exactly the observations at
the given zero-based positions removed and the order of the rest preserved:
it equals the map of the surviving positions (which depend only on the
sample length and the index set, hence the same index set removes the same
positions from every metric of a unit, regardless of the values); in
particular excluding index 1 from any 3-element sample removes exactly the
second element. -/
theorem excludeIndices_removes_exactly_positions :
    (∀ (items : List ℚ) (indices : List ℕ),
        Values.excludeIndices items indices
          = (keptPositions items.length indices).map (fun i => items.getD i 0)) ∧
    ∀ a b c : ℚ, Values.excludeIndices [a, b, c] [1] = [a, c] := by
  constructor
  · intro items indices
    have h := excludeIndices_enumFrom indices items 0
    simp only [Nat.sub_zero] at h
    simpa [Values.excludeIndices, List.enum, keptPositions, List.range_eq_range'] using h
  · intro a b c
    rfl

/-- C2 (code slip): for the build command with the caller option --color=no,
the source computes options + defaults, appending all three defaults after
the caller options and duplicating --color=no, while its own comment says
the defaults are prepended, and the spec version (defaults not already
present, prepended) gives a different list. -/
theorem singleRunOptions_appends_and_duplicates :
    singleRunOptions "build" ["--color=no"]
        = ["--color=no", "--nostamp", "--noshow_progress", "--color=no"] ∧
    specSingleRunOptions "build" ["--color=no"]
        = ["--nostamp", "--noshow_progress", "--color=no"] ∧
    singleRunOptions "build" ["--color=no"] ≠ specSingleRunOptions "build" ["--color=no"] := by
  have h1 : singleRunOptions "build" ["--color=no"]
      = ["--color=no", "--nostamp", "--noshow_progress", "--color=no"] := rfl
  have h2 : specSingleRunOptions "build" ["--color=no"]
      = ["--nostamp", "--noshow_progress", "--color=no"] := rfl
  refine ⟨h1, h2, ?_⟩
  rw [h1, h2]
  intro h
  exact absurd (congrArg List.length h) (by simp)

/-- Loop of parse_bazel_args_from_canonical_str as a span: the options are
the longest flag-marker run after the command and the expressions are
everything from the first non-flag token on. -/
theorem splitCanonical_eq_span (l : List String) :
    splitCanonical l = (l.takeWhile startsWithFlagMarker, l.dropWhile startsWithFlagMarker) := by
  induction l with
  | nil => rfl
  | cons a rest ih =>
    by_cases h : startsWithFlagMarker a
    · simp [splitCanonical, List.takeWhile_cons, List.dropWhile_cons, h, ih]
    · simp [splitCanonical, List.takeWhile_cons, List.dropWhile_cons, h]

/-- C4: for every non-empty token list, the first token is the command, the
options are the tokens starting with the flag marker up to the first one
that does not, and from there all remaining tokens are the targets; the
token list reconstructed from the resulting triple re-normalizes to the
identical triple. -/
theorem parseCanonicalArgs_normalization_and_idempotence :
    (∀ (cmd : String) (rest : List String),
        parseCanonicalArgs (cmd :: rest)
          = .ok (cmd, rest.dropWhile startsWithFlagMarker,
                 rest.takeWhile startsWithFlagMarker)) ∧
    (parseCanonicalArgs ["build", "--opt1", "--opt2=x", "//t:target"]
        = .ok ("build", ["//t:target"], ["--opt1", "--opt2=x"])) ∧
    ∀ (args : List String) (cmd : String) (es os : List String),
      parseCanonicalArgs args = .ok (cmd, es, os) →
      parseCanonicalArgs (cmd :: (os ++ es)) = .ok (cmd, es, os) := by
  refine ⟨?_, rfl, ?_⟩
  · intro cmd rest
    simp [parseCanonicalArgs, splitCanonical_eq_span]
  · intro args cmd es os h
    cases args with
    | nil => simp [parseCanonicalArgs] at h
    | cons c rest =>
      simp only [parseCanonicalArgs, splitCanonical_eq_span, Except.ok.injEq,
        Prod.mk.injEq] at h
      obtain ⟨hc, he, ho⟩ := h
      subst hc
      have hrec : os ++ es = rest := by
        rw [← ho, ← he, List.takeWhile_append_dropWhile]
      rw [hrec]
      simp [parseCanonicalArgs, splitCanonical_eq_span, he, ho]

/-- Witness for the idempotence part of C4 at the canonical example. -/
theorem parseCanonicalArgs_idempotence_witness :
    parseCanonicalArgs ("build" :: (["--opt1", "--opt2=x"] ++ ["//t:target"]))
      = .ok ("build", ["//t:target"], ["--opt1", "--opt2=x"]) :=
  parseCanonicalArgs_normalization_and_idempotence.2.2
    ["build", "--opt1", "--opt2=x", "//t:target"] "build" ["//t:target"]
    ["--opt1", "--opt2=x"] rfl

/-- C9 counterexample: normalizing an empty token list does NOT produce the
malformedInvocation error the claim names (the source raises a plain
IndexError from args[0]). -/
theorem parseCanonicalArgs_empty_not_malformed :
    parseCanonicalArgs [] ≠ .error .malformedInvocation := by
  intro h
  exact absurd (Except.error.inj h) (by intro h2; cases h2)

/-- C9 amended: normalizing an empty token list fails with the unclassified
index-out-of-range failure of args[0] on an empty list. -/
theorem parseCanonicalArgs_empty_index_error :
    parseCanonicalArgs [] = .error .indexOutOfRange := rfl

/-- Folding max over a constant-zero list gives zero. -/
theorem foldr_max_map_zero (m : List ℚ) : (m.map (fun _ => (0 : ℚ))).foldr max 0 = 0 := by
  induction m with
  | nil => rfl
  | cons x xs ih => rw [List.map_cons, List.foldr_cons, ih, max_self]

/-- The KS statistic of a sample against itself is zero. -/
theorem ksStat_self (l : List ℚ) : ksStat l l = 0 := by
  unfold ksStat
  have h : ((l ++ l).map (fun x => |ecdf l x - ecdf l x|))
      = (l ++ l).map (fun _ => (0 : ℚ)) := by
    refine List.map_congr_left ?_
    intro a _
    simp
  rw [h, foldr_max_map_zero]

/-- With band half-width zero no lattice path is strictly inside, so the
exact KS p-value of a sample against itself is 1. -/
theorem ks2sampPvalue_self (l : List ℚ) (h : 1 < l.length) : ks2sampPvalue l l = 1 := by
  obtain ⟨k, hk⟩ : ∃ k, l.length = k + 1 + 1 := ⟨l.length - 2, by omega⟩
  have hfalse : ksInside (k + 1 + 1) (k + 1 + 1) 0 (k + 1 + 1) (k + 1 + 1) = false := by
    simp [ksInside]
  simp only [ks2sampPvalue, ksStat_self, hk]
  rw [show pathCount (ksInside (k + 1 + 1) (k + 1 + 1) 0) (k + 1 + 1) (k + 1 + 1)
      = pathCountF (ksInside (k + 1 + 1) (k + 1 + 1) 0)
          ((k + 1 + 1) + (k + 1 + 1) + 1) (k + 1 + 1) (k + 1 + 1) from rfl]
  rw [pathCountF, hfalse]
  simp

/-- Values.pval of a sample with more than one observation against itself
is 0 (the KS p-value is 1 and pval is the 1 - p transform). -/
theorem pval_self_eq_zero (l : List ℚ) (h : 1 < l.length) : Values.pval l l = 0 := by
  rw [Values.pval, if_pos ⟨h, h⟩, ks2sampPvalue_self l h, sub_self]

/-- C5: pval is 1 - p of the two-sample KS test when both samples have at
least 2 observations, returns the sentinel -1 whenever either sample has
fewer than 2 observations, and returns 0 for two identical 3-element
samples. -/
theorem pval_sentinel_and_identical :
    (∀ s t : List ℚ, s.length < 2 ∨ t.length < 2 → Values.pval s t = -1) ∧
    (∀ s t : List ℚ, 2 ≤ s.length → 2 ≤ t.length →
        Values.pval s t = 1 - ks2sampPvalue s t) ∧
    ∀ a b c : ℚ, Values.pval [a, b, c] [a, b, c] = 0 := by
  refine ⟨?_, ?_, ?_⟩
  · intro s t h
    rw [Values.pval, if_neg]
    rintro ⟨h1, h2⟩
    omega
  · intro s t hs ht
    rw [Values.pval, if_pos ⟨by omega, by omega⟩]
  · intro a b c
    exact pval_self_eq_zero [a, b, c] (by simp)

/-- Witness for C5: the sentinel at a 1-element sample and the identical
3-element samples of values_test.py. -/
theorem pval_sentinel_and_identical_witness :
    Values.pval [5] [1, 2, 3] = -1 ∧ Values.pval [1, 10, 1] [1, 10, 1] = 0 :=
  ⟨pval_sentinel_and_identical.1 [5] [1, 2, 3] (Or.inl (by simp)),
   pval_sentinel_and_identical.2.2 1 10 1⟩

/-- Under the frozen source a measured-run loop with at least one run index
stops at its first _single_run: the TypeError of the collect_memory=
keyword fires before any invocation, so the log is empty.  Shared by the
record-count and the invocation-order theorems. -/
theorem runBenchmark_typeError_eq (command : String) (opts targets : List String)
    (cm : Bool) (pe : SingleRunEnv) (env : ℕ → SingleRunEnv) (n : ℕ) :
    runBenchmark command opts targets (n + 1) false cm pe env
      = ([], .error .typeError) := rfl

/-- C6 (code slip): the exit-status handling the claim describes is never
reached in the frozen source.  The call at src/benchmark.py line 258 passes
collect_memory= to Bazel.command, whose signature (src/utils/bazel.py line
41) accepts no such keyword, so every unit with at least one repetition
aborts with a TypeError before its first invocation, yielding no record
list at all - not the claimed N records with recorded exit statuses -
whatever per-run exit codes the oracle would have supplied; the abort is a
TypeError, not a process launch failure. -/
theorem runBenchmark_typeError_no_records (command : String) (opts targets : List String)
    (n : ℕ) (cm : Bool) (pe : SingleRunEnv) (env : ℕ → SingleRunEnv) :
    runBenchmark command opts targets (n + 1) false cm pe env
        = ([], .error .typeError) ∧
    ∀ (t : List Invocation) (records : List (Option RunRecord)),
      runBenchmark command opts targets (n + 1) false cm pe env ≠ (t, .ok records) := by
  refine ⟨runBenchmark_typeError_eq command opts targets cm pe env n, ?_⟩
  intro t records h
  rw [runBenchmark_typeError_eq] at h
  exact absurd (congrArg Prod.snd h) (by simp)

/-- C7 (code slip): with repetition count 2, the build command and no
prefetch, the frozen source performs zero Bazel invocations - the TypeError
at src/benchmark.py line 258 fires before the first build - so the
invocation log is empty and the claimed build, clean, shutdown, build,
clean, shutdown interleaving (and with it the unconditional reset and
shutdown cleanup pair) never happens. -/
theorem runBenchmark_typeError_no_invocations (options targets : List String)
    (cm : Bool) (pe : SingleRunEnv) (env : ℕ → SingleRunEnv) :
    (runBenchmark "build" options targets 2 false cm pe env).1.map Invocation.command
        = [] ∧
    (runBenchmark "build" options targets 2 false cm pe env).1.map Invocation.command
        ≠ ["build", "clean", "shutdown", "build", "clean", "shutdown"] := by
  have h : runBenchmark "build" options targets 2 false cm pe env
      = ([], .error .typeError) :=
    runBenchmark_typeError_eq "build" options targets cm pe env 1
  constructor
  · rw [h]
    rfl
  · rw [h]
    simp

/-- C8 (code slip): Bazel.command takes no memory-collection input at all -
the source method has no collect_memory parameter, though its docstring
says memory is optional and its caller _single_run passes collect_memory= -
and the returned record always carries memory = the minimum of the 5
successive heap queries, whatever the exit code. -/
theorem bazelCommand_memory_unconditional (args : List String) (env : CmdEnv) (code : ℤ)
    (h : env.outcome = .exited code) :
    Bazel.command "build" args env
      = .ok (some { wall := env.after.wall - env.before.wall
                    cpu := env.after.cpu - env.before.cpu
                    system := env.after.system - env.before.system
                    memory := minHeap5 env.heap
                    exitStatus := code }) := by
  have hb : ("build" : String) ≠ "shutdown" := by decide
  simp [Bazel.command, h, hb]

/-- Block k + 1 of the summary is computed with last_collected equal to the
key k element of the data, as collected (raw), whatever the loop started
with. -/
theorem createSummaryRows_getD_succ :
    ∀ (data : List Collected) (last : Option Collected) (k : ℕ), k + 1 < data.length →
      (createSummaryRows data last).getD (k + 1) []
        = summaryRowsForKey (data[k]?) (data.getD (k + 1) ⟨[], []⟩) := by
  intro data
  induction data with
  | nil => intro last k hk; simp at hk
  | cons c rest ih =>
    intro last k hk
    have hstep : (createSummaryRows (c :: rest) last).getD (k + 1) []
        = (createSummaryRows rest (some c)).getD k [] := rfl
    cases k with
    | zero => rw [hstep]; cases rest with
      | nil => simp at hk
      | cons c2 r2 => rfl
    | succ j =>
        rw [hstep, ih (some c) j (by simpa using hk)]
        simp [List.getElem?_cons_succ, List.getD_cons_succ]

/-- C3 amended: the comparison baseline of every key after the first is the
immediately previously processed key as collected - its raw samples, with
no non-zero-exit exclusion applied to the baseline - and for the first key
the pval and the mean and median deltas are blank rather than numeric. -/
theorem createSummary_first_blank_then_prev_raw (data : List Collected) :
    (∀ r ∈ (createSummaryRows data none).getD 0 [],
        r.pval = none ∧ r.meanDiff = none ∧ r.medianDiff = none) ∧
    ∀ k, k + 1 < data.length →
      (createSummaryRows data none).getD (k + 1) []
        = summaryRowsForKey (data[k]?) (data.getD (k + 1) ⟨[], []⟩) := by
  constructor
  · intro r hr
    cases data with
    | nil => simp [createSummaryRows] at hr
    | cons c rest =>
        have h0 : (createSummaryRows (c :: rest) none).getD 0 []
            = summaryRowsForKey none c := rfl
        rw [h0] at hr
        simp only [summaryRowsForKey, List.mem_filterMap] at hr
        obtain ⟨a, _, hf⟩ := hr
        by_cases hex : Values.excludeIndices a.2 (nonZeroRunIndexes c.exitStatus) = []
        · simp [hex] at hf
        · rw [if_neg hex, Option.some.injEq] at hf
          subst hf
          exact ⟨rfl, rfl, rfl⟩
  · exact fun k hk => createSummaryRows_getD_succ data none k hk

/-- Witness for C3 at a concrete two-key data set. -/
theorem createSummary_first_blank_then_prev_raw_witness :
    (createSummaryRows [⟨[("wall", [1, 100])], [0, 1]⟩, ⟨[("wall", [1, 1])], [0, 0]⟩]
          none).getD 1 []
      = summaryRowsForKey (some ⟨[("wall", [1, 100])], [0, 1]⟩)
          ⟨[("wall", [1, 1])], [0, 0]⟩ := by
  have h := (createSummary_first_blank_then_prev_raw
    [⟨[("wall", [1, 100])], [0, 1]⟩, ⟨[("wall", [1, 1])], [0, 0]⟩]).2 0 (by simp)
  simpa using h

/-- C3 counterexample: with a previous key whose second run failed (exit 1,
wall samples [1, 100]) and a current key with wall samples [1, 1] and no
failures, the source computes the mean delta against the raw baseline mean
(101/2), giving -9900/101 percent, whereas the claim (baseline with its
non-zero-exit run removed, mean 1) would give 0 percent; the summary as
implemented therefore differs from the summary the claim describes. -/
theorem createSummary_baseline_not_excluded_counterexample :
    (((createSummaryRows [⟨[("wall", [1, 100])], [0, 1]⟩, ⟨[("wall", [1, 1])], [0, 0]⟩]
            none).getD 1 []).getD 0 ⟨"", 0, 0, none, none, none⟩).meanDiff
        = some (-9900 / 101) ∧
    (((claimCreateSummaryRows [⟨[("wall", [1, 100])], [0, 1]⟩, ⟨[("wall", [1, 1])], [0, 0]⟩]
            none).getD 1 []).getD 0 ⟨"", 0, 0, none, none, none⟩).meanDiff
        = some 0 ∧
    createSummaryRows [⟨[("wall", [1, 100])], [0, 1]⟩, ⟨[("wall", [1, 1])], [0, 0]⟩] none
      ≠ claimCreateSummaryRows [⟨[("wall", [1, 100])], [0, 1]⟩, ⟨[("wall", [1, 1])], [0, 0]⟩]
          none := by
  have e1 : (((createSummaryRows [⟨[("wall", [1, 100])], [0, 1]⟩,
      ⟨[("wall", [1, 1])], [0, 0]⟩] none).getD 1 []).getD 0
        ⟨"", 0, 0, none, none, none⟩).meanDiff = some (-9900 / 101) := by
    norm_num [createSummaryRows, summaryRowsForKey, nonZeroRunIndexes, Values.excludeIndices,
      listMean, List.enum, List.enumFrom, List.filterMap, List.lookup, List.cons_ne_nil]
  have e2 : (((claimCreateSummaryRows [⟨[("wall", [1, 100])], [0, 1]⟩,
      ⟨[("wall", [1, 1])], [0, 0]⟩] none).getD 1 []).getD 0
        ⟨"", 0, 0, none, none, none⟩).meanDiff = some 0 := by
    norm_num [claimCreateSummaryRows, claimSummaryRowsForKey, nonZeroRunIndexes,
      Values.excludeIndices, listMean, List.enum, List.enumFrom, List.filterMap, List.lookup,
      List.cons_ne_nil]
  refine ⟨e1, e2, ?_⟩
  intro h
  have hp := congrArg
    (fun l => ((l.getD 1 []).getD 0 ⟨"", 0, 0, none, none, none⟩).meanDiff) h
  simp only at hp
  rw [e1, e2] at hp
  rw [Option.some.injEq] at hp
  norm_num at hp

/-- Witness for C8: a run with memory collection disabled in the unit still
gets a memory field, the minimum of the five heap samples. -/
theorem bazelCommand_memory_unconditional_witness :
    Bazel.command "build" []
        ⟨.exited 0, ⟨0, 0, 0⟩, ⟨10, 7, 3⟩, fun n => [5, 3, 9, 4, 7].getD n 0⟩
      = .ok (some { wall := (10 : ℚ) - 0, cpu := (7 : ℚ) - 0, system := (3 : ℚ) - 0,
                    memory := minHeap5 (fun n => [5, 3, 9, 4, 7].getD n 0),
                    exitStatus := 0 }) :=
  bazelCommand_memory_unconditional []
    ⟨.exited 0, ⟨0, 0, 0⟩, ⟨10, 7, 3⟩, fun n => [5, 3, 9, 4, 7].getD n 0⟩ 0 rfl

/-- Example store for the C10 witness: one allocated list [1, 2] at
location 0. -/
def vstoreEx : VStore := ⟨1, fun l => if l = 0 then [1, 2] else []⟩

/-- C10: items() returns a copy - a fresh list whose mutation leaves the
stored observations, and hence the subsequent values of mean and median,
unchanged - while values() returns the internal list itself (mutating
through it changes the stored observations), and a non-empty list passed to
the constructor is aliased, so add() mutates the caller list. -/
theorem values_items_copy_values_alias_init_alias (σ : VStore) (v l₀ : ℕ)
    (hv : v < σ.next) :
    ((Values.itemsRef σ v).1.mem (Values.itemsRef σ v).2 = σ.mem v) ∧
    ((Values.itemsRef σ v).2 ≠ v) ∧
    (∀ xs : List ℚ,
        (((Values.itemsRef σ v).1.write (Values.itemsRef σ v).2 xs).mem v = σ.mem v) ∧
        Values.meanAt ((Values.itemsRef σ v).1.write (Values.itemsRef σ v).2 xs) v
          = Values.meanAt σ v ∧
        Values.medianAt ((Values.itemsRef σ v).1.write (Values.itemsRef σ v).2 xs) v
          = Values.medianAt σ v) ∧
    (∀ xs : List ℚ, (σ.write (Values.valuesRef v) xs).mem v = xs) ∧
    (σ.mem l₀ ≠ [] →
        Values.init σ (some l₀) = (σ, l₀) ∧
        ∀ y : ℚ, (Values.add σ l₀ y).mem l₀ = σ.mem l₀ ++ [y]) := by
  have hne : v ≠ σ.next := Nat.ne_of_lt hv
  have hmem : ∀ xs : List ℚ,
      ((Values.itemsRef σ v).1.write (Values.itemsRef σ v).2 xs).mem v = σ.mem v := by
    intro xs
    simp [Values.itemsRef, VStore.alloc, VStore.write, hne]
  refine ⟨?_, ?_, ?_, ?_, ?_⟩
  · simp [Values.itemsRef, VStore.alloc]
  · simp [Values.itemsRef, VStore.alloc]
    omega
  · intro xs
    exact ⟨hmem xs, by rw [Values.meanAt, hmem xs, Values.meanAt],
      by rw [Values.medianAt, hmem xs, Values.medianAt]⟩
  · intro xs
    simp [Values.valuesRef, VStore.write]
  · intro hl
    refine ⟨by simp [Values.init, hl], ?_⟩
    intro y
    simp [Values.add, VStore.write]

/-- Witness for C10 at the concrete one-location store. -/
theorem values_items_copy_values_alias_init_alias_witness :
    (Values.itemsRef vstoreEx 0).2 ≠ 0 ∧
    Values.init vstoreEx (some 0) = (vstoreEx, 0) ∧
    ∀ y : ℚ, (Values.add vstoreEx 0 y).mem 0 = vstoreEx.mem 0 ++ [y] :=
  ⟨(values_items_copy_values_alias_init_alias vstoreEx 0 0 (by decide)).2.1,
   ((values_items_copy_values_alias_init_alias vstoreEx 0 0 (by decide)).2.2.2.2
      (by decide)).1,
   ((values_items_copy_values_alias_init_alias vstoreEx 0 0 (by decide)).2.2.2.2
      (by decide)).2⟩

end BazelBench
